import Mathlib

/-!
Verification of the filterworld frame-compositing engine against its
specification.  The Python source is shallowly embedded: images are nested
lists of 8-bit samples, float arithmetic is modelled over the rationals
(exact at every point the claims constrain), and fallible constructors
return `Except`.
-/

set_option maxHeartbeats 1000000

namespace Filterworld

/-- Pixel grid of an 8-bit image: rows of pixels, each pixel a list of
channel samples (`(H, W, 3)` when well-formed). -/
abbrev Img := List (List (List ℕ))

/-- Feature tensor `(D, H, W)`: list of channels, each a matrix of float
values modelled as rationals. -/
abbrev Tensor := List (List (List ℚ))

/-- Truncation toward zero of a rational, as a float-to-integer cast does:
the integer part of `|q|` carrying the sign of `q`. -/
def truncQ (q : ℚ) : ℤ := if q < 0 then -(Int.floor (-q)) else Int.floor q

/-- numpy `astype(np.uint8)` on a float value: truncate toward zero, wrap
modulo 256. -/
def toU8 (q : ℚ) : ℕ := ((truncQ q) % 256).toNat

/-- numpy `np.clip(x, 0.0, 1.0)` as used by `Layer.__init__`. -/
def clip01 (q : ℚ) : ℚ := max 0 (min q 1)

/-- Structure `ImageLayer` holds only the clipped opacity. -/
structure ImageLayer where
  opacity : ℚ
deriving DecidableEq, Repr

/-- Constructor `ImageLayer(opacity=...)`: the base `Layer.__init__` clips opacity into
`[0.0, 1.0]`. -/
def ImageLayer.init (opacity : ℚ) : ImageLayer := ⟨clip01 opacity⟩

/-- A numpy array object: a heap identity plus the pixel data.  Identity lets
the embedding state aliasing facts (`copy()` allocates a fresh identity). -/
structure NpImg where
  id : ℕ
  data : Img
deriving DecidableEq

/-- One blended sample: `(target*(1-opacity) + frame*opacity).astype(np.uint8)`. -/
def blendPx (op : ℚ) (t f : ℕ) : ℕ := toU8 ((t : ℚ) * (1 - op) + (f : ℚ) * op)

/-- Element-wise blend of two images of equal shape. -/
def blendData (op : ℚ) (t f : Img) : Img :=
  List.zipWith (List.zipWith (List.zipWith (blendPx op))) t f

/-- Method `ImageLayer.render(target, frame, filter_output)`.  `fresh` is the
identity of the array the call allocates (`frame.copy()` in the full-opacity
branch, the `blended` array otherwise); the filter output is unused by the
source. -/
def ImageLayer.render (l : ImageLayer) (fresh : ℕ) (target frame : NpImg) : NpImg :=
  if 1 ≤ l.opacity then ⟨fresh, frame.data⟩
  else ⟨fresh, blendData l.opacity target.data frame.data⟩

/-- Well-formed `(h, w, 3)` uint8 image. -/
def wfImg (h w : ℕ) (img : Img) : Prop :=
  img.length = h ∧ ∀ row ∈ img, row.length = w ∧
    ∀ px ∈ row, px.length = 3 ∧ ∀ v ∈ px, v < 256

instance (h w : ℕ) (img : Img) : Decidable (wfImg h w img) := by
  unfold wfImg; infer_instance

/-- Pixel accessor `img[y][x][c]` with default 0. -/
def px3 (img : Img) (y x c : ℕ) : ℕ := ((img.getD y []).getD x []).getD c 0

/-- Rounding a non-negative value to nearest (ties up): the specification's
reading of `round(target*0.5 + frame*0.5)`. -/
def roundQ (q : ℚ) : ℤ := truncQ (q + 1/2)

/-- The blend the specification asserts for `opacity = 0.5`. -/
def specBlendHalfPx (t f : ℕ) : ℕ := (roundQ ((t : ℚ) * (1/2) + (f : ℚ) * (1/2))).toNat

/-- Shape compatibility of two images, remembering that the left one's samples
are 8-bit. -/
def Compat (t f : Img) : Prop :=
  List.Forall₂ (List.Forall₂ (List.Forall₂ (fun a (_ : ℕ) => a < 256))) t f

/-- numpy `.min()` modelled over a list of values (0 on the empty list, a
case numpy rejects and no claim exercises). -/
def qmin : List ℚ → ℚ
  | [] => 0
  | x :: xs => xs.foldl min x

/-- numpy `.max()` modelled over a list of values. -/
def qmax : List ℚ → ℚ
  | [] => 0
  | x :: xs => xs.foldl max x

/-- numpy `ch.min()` over a `(H, W)` channel. -/
def chanMin (ch : List (List ℚ)) : ℚ := qmin ch.flatten

/-- numpy `ch.max()` over a `(H, W)` channel. -/
def chanMax (ch : List (List ℚ)) : ℚ := qmax ch.flatten

/-- The per-channel body of `FeatureLayer._reduce_first3`: compute the
channel's min and max; if `max - min > 0` map each value `v` to
`(v - min)/(max - min) * 255` cast to uint8, otherwise an all-zero channel. -/
def normChannel (ch : List (List ℚ)) : List (List ℕ) :=
  let mn := chanMin ch
  let mx := chanMax ch
  if 0 < mx - mn then ch.map (List.map fun v => toU8 ((v - mn) / (mx - mn) * 255))
  else ch.map (List.map fun _ => 0)

/-- Method `FeatureLayer._reduce_first3`: take the first three channels, normalize
each independently, and assemble the `(H, W, 3)` uint8 image
`result[:, :, idx] = normalized`. -/
def FeatureLayer.reduce_first3 (features : Tensor) : Img :=
  let channels := features.take 3
  let h := (channels.getD 0 []).length
  let w := ((channels.getD 0 []).getD 0 []).length
  let normed := channels.map normChannel
  (List.range h).map fun y => (List.range w).map fun x =>
    (List.range 3).map fun c => ((normed.getD c []).getD y []).getD x 0

/-- Well-formed `(d, h, w)` feature tensor. -/
def wfTensor (d h w : ℕ) (t : Tensor) : Prop :=
  t.length = d ∧ ∀ ch ∈ t, ch.length = h ∧ ∀ row ∈ ch, row.length = w

instance (d h w : ℕ) (t : Tensor) : Decidable (wfTensor d h w t) := by
  unfold wfTensor; infer_instance

/-- The patch vector at spatial position `(y, x)`: one length-`D` row of
`features.reshape(d, h*w).T`. -/
def patchAt (features : Tensor) (y x : ℕ) : List ℚ :=
  features.map fun ch => (ch.getD y []).getD x 0

/-- One row of `projected = (patches - mean) @ components.T`: the patch at
`(y, x)` minus `mean`, dotted with each component. -/
def projPatch (components : List (List ℚ)) (mean : List ℚ)
    (features : Tensor) (y x : ℕ) : List ℚ :=
  components.map fun comp =>
    (List.zipWith (fun a b => a * b)
      (List.zipWith (fun a b => a - b) (patchAt features y x) mean) comp).sum

/-- The `(H, W, 3)` grid of projected values (the `(H*W, 3)` array `projected`
indexed by `p = y*w + x`). -/
def projGrid (components : List (List ℚ)) (mean : List ℚ)
    (features : Tensor) (h w : ℕ) : List (List (List ℚ)) :=
  (List.range h).map fun y => (List.range w).map fun x =>
    projPatch components mean features y x

/-- All `H*W*3` projected values of one frame, over which `_reduce_pca`
takes its single global min and max. -/
def pcaVals (components : List (List ℚ)) (mean : List ℚ) (features : Tensor) : List ℚ :=
  let h := (features.getD 0 []).length
  let w := ((features.getD 0 []).getD 0 []).length
  ((projGrid components mean features h w).map List.flatten).flatten

/-- Method `FeatureLayer._reduce_pca` with the basis already loaded: reshape to
`(H*W, D)`, subtract `mean`, multiply by `components.T`, normalize with the
global min/max over all projected values (all-zero when they coincide),
reshape to `(H, W, 3)` uint8. -/
def FeatureLayer.reduce_pca (components : List (List ℚ)) (mean : List ℚ)
    (features : Tensor) : Img :=
  let h := (features.getD 0 []).length
  let w := ((features.getD 0 []).getD 0 []).length
  let proj := projGrid components mean features h w
  let mn := qmin (pcaVals components mean features)
  let mx := qmax (pcaVals components mean features)
  if 0 < mx - mn then
    proj.map (List.map (List.map fun v => toU8 ((v - mn) / (mx - mn) * 255)))
  else
    proj.map (List.map (List.map fun _ => 0))

/-- An `(h, w, 3)` image (shape only, no sample bound). -/
def wfShape (h w : ℕ) (img : Img) : Prop :=
  img.length = h ∧ ∀ row ∈ img, row.length = w ∧ ∀ px ∈ row, px.length = 3

instance (h w : ℕ) (img : Img) : Decidable (wfShape h w img) := by
  unfold wfShape; infer_instance

/-- A pane image as produced by `Pane.render`: a nonempty rectangular
3-channel image. -/
def paneOk (img : Img) : Prop :=
  ∃ ph pw, 0 < ph ∧ 0 < pw ∧ wfShape ph pw img

/-- Models the geometry of `cv2.resize(img, (w, h))`: exactly `h` rows of
`w` pixels, each sampled from the input grid by index scaling.  OpenCV's
interpolation arithmetic and its rejection of empty sizes are
external-library behavior outside this model; the claims below depend only
on the output geometry and on which expression the `n = 1` branch returns. -/
def cvResize (img : Img) (w h : ℕ) : Img :=
  let ih := img.length
  let iw := (img.getD 0 []).length
  (List.range h).map fun y => (List.range w).map fun x =>
    (img.getD (y * ih / h) []).getD (x * iw / w) []

/-- Model of `np.zeros((height, width, 3), np.uint8)`. -/
def zerosImg (h w : ℕ) : Img :=
  (List.range h).map fun _ => (List.range w).map fun _ => [0, 0, 0]

/-- numpy slice assignment
`output[y0:y0+cellH, x0:x0+cellW] = tile` for a `(cellH, cellW, 3)` tile. -/
def overlay (out tile : Img) (y0 x0 cellH cellW : ℕ) : Img :=
  (List.range out.length).map fun y =>
    let row := out.getD y []
    if y0 ≤ y ∧ y < y0 + cellH then
      (List.range row.length).map fun x =>
        if x0 ≤ x ∧ x < x0 + cellW then
          (tile.getD (y - y0) []).getD (x - x0) (row.getD x [])
        else row.getD x []
    else row

/-- Constructor `GridLayout(width, height, n_cols=2)`. -/
structure GridLayout where
  width : ℕ
  height : ℕ
  n_cols : ℕ := 2
deriving DecidableEq, Repr

/-- Method `GridLayout.arrange`: black frame for no panes, a full-frame resize for
one pane, otherwise a row-major grid of `ceil(n/cols)` rows of
integer-division-sized cells blitted onto a zero canvas. -/
def GridLayout.arrange (L : GridLayout) (rendered_panes : List Img) : Img :=
  let n_panes := rendered_panes.length
  if n_panes = 0 then zerosImg L.height L.width
  else if n_panes = 1 then cvResize (rendered_panes.getD 0 []) L.width L.height
  else
    let n_rows := (n_panes + L.n_cols - 1) / L.n_cols
    let cell_w := L.width / L.n_cols
    let cell_h := L.height / n_rows
    rendered_panes.enum.foldl
      (fun output ip =>
        overlay output (cvResize ip.2 cell_w cell_h)
          (ip.1 / L.n_cols * cell_h) (ip.1 % L.n_cols * cell_w) cell_h cell_w)
      (zerosImg L.height L.width)

/-- Structure `LayoutConfig` with the defaults declared in `config.py`. -/
structure LayoutConfig where
  type : String := "grid"
  rows : ℕ := 1
  cols : ℕ := 1
deriving DecidableEq, Repr

/-- Structure `OutputConfig` with the defaults declared in `config.py`. -/
structure OutputConfig where
  fps : Option ℚ := none
  codec : String := "mp4v"
  width : Option ℕ := none
  height : Option ℕ := none
deriving DecidableEq, Repr

/-- A layer-definition dict restricted to the keys the registered layer
constructors accept (`type`, `opacity`, `method`, `pca_path`); `none` models
an absent key. -/
structure LayerDict where
  type : Option String := none
  opacity : Option ℚ := none
  method : Option String := none
  pca_path : Option String := none
deriving DecidableEq, Repr

/-- Structure `PaneConfig`. -/
structure PaneConfig where
  layers : List LayerDict := []
  label : Option String := none
deriving DecidableEq, Repr

/-- Top-level `Config`. -/
structure Config where
  layout : LayoutConfig := {}
  panes : List PaneConfig := []
  output : OutputConfig := {}
deriving DecidableEq, Repr

/-- Python `a or b` for an optional integer `a`: both `None` and `0` are
falsy and fall through to `b`. -/
def pyOrNat (a : Option ℕ) (b : ℕ) : ℕ :=
  match a with
  | none => b
  | some v => if v = 0 then b else v

/-- Method `Canvas._init_layout`: derive the layout from configuration and the
observed input frame dimensions; `n_panes` is `len(self.panes)`. -/
def Canvas.init_layout (config : Config) (n_panes frame_width frame_height : ℕ) :
    Except String GridLayout :=
  let n_cols := config.layout.cols
  let n_rows := (n_panes + n_cols - 1) / n_cols
  let w := pyOrNat config.output.width (frame_width * n_cols)
  let h := pyOrNat config.output.height (frame_height * n_rows)
  if config.layout.type = "grid" then
    .ok (GridLayout.mk w h config.layout.cols)
  else
    .error ("unsupported layout type: " ++ config.layout.type)

/-- Python errors distinguished by the embedding: `valueError` carries the
message of the `raise`; `typeError` models `cls(**kwargs)` rejecting a
keyword argument the constructor does not accept. -/
inductive PyError where
  | valueError (msg : String)
  | typeError
deriving DecidableEq, Repr

/-- Structure `FeatureLayer`: the state right after construction (the lazily-loaded PCA
cache starts empty). -/
structure FeatureLayer where
  method : String
  opacity : ℚ
  pca_path : Option String
deriving DecidableEq, Repr

/-- Constructor `FeatureLayer.__init__`: clip opacity, store the fields, and raise
`ValueError` when `method='pca'` and no `pca_path` was given. -/
def FeatureLayer.init (method : String) (opacity : ℚ) (pca_path : Option String) :
    Except PyError FeatureLayer :=
  if method = "pca" ∧ pca_path = none then
    .error (.valueError ("pca_path is required when method=\"pca\". "
      ++ "run `filterworld precompute` first to generate PCA weights."))
  else
    .ok ⟨method, clip01 opacity, pca_path⟩

/-- Python `repr` of a simple string (an apostrophe-quoted display). -/
def pyQuote (s : String) : String := "\x27" ++ s ++ "\x27"

/-- The keys of `_LAYER_REGISTRY`, in declaration order. -/
def LAYER_REGISTRY_KEYS : List String := ["image", "feature"]

/-- The Python display of `list(_LAYER_REGISTRY.keys())`. -/
def registryKeysRepr : String :=
  "[" ++ pyQuote "image" ++ ", " ++ pyQuote "feature" ++ "]"

/-- The closed sum of registered layer kinds. -/
inductive Layer where
  | image (layer : ImageLayer)
  | feature (layer : FeatureLayer)
deriving DecidableEq, Repr

/-- Function `_build_layer`: pop `type` (defaulting to 'image'), look the value up in
the registry, and call the selected constructor with the remaining keys; an
unknown type raises `ValueError` naming the offending value and the known
types; a constructor passed a key it does not accept raises `TypeError`. -/
def build_layer (d : LayerDict) : Except PyError Layer :=
  let layer_type := d.type.getD "image"
  if layer_type = "image" then
    if d.method.isSome ∨ d.pca_path.isSome then .error .typeError
    else .ok (.image (ImageLayer.init (d.opacity.getD 1)))
  else if layer_type = "feature" then
    (FeatureLayer.init (d.method.getD "first3") (d.opacity.getD 1) d.pca_path).map .feature
  else
    .error (.valueError ("unknown layer type: " ++ pyQuote layer_type
      ++ ". available types: " ++ registryKeysRepr))

/-- Sequential evaluation of a Python list comprehension over a fallible
constructor: the first exception propagates. -/
def mapExcept {α β ε : Type} (f : α → Except ε β) : List α → Except ε (List β)
  | [] => .ok []
  | x :: xs => do
    let b ← f x
    let bs ← mapExcept f xs
    .ok (b :: bs)

/-- A built `Pane`: its layer stack and label. -/
structure Pane where
  layers : List Layer
  label : Option String
deriving DecidableEq, Repr

/-- Constructor `Canvas.__init__` building its panes: from configuration when panes are
declared, otherwise a single default pane holding one ImageLayer. -/
def Canvas.build_panes (config : Config) : Except PyError (List Pane) :=
  if config.panes.isEmpty then
    .ok [⟨[.image (ImageLayer.init 1)], some "original"⟩]
  else
    mapExcept (fun pane_cfg =>
      (mapExcept build_layer pane_cfg.layers).map
        fun layers => ⟨layers, pane_cfg.label⟩) config.panes

/-- Structure `VideoWriter`: the resource state: whether the underlying `cv2.VideoWriter`
object is live (`_writer is not None`) and how many times `release()` ran. -/
structure VideoWriter where
  writerSome : Bool
  frame_count : ℕ
  releases : ℕ
deriving DecidableEq, Repr

/-- Method `VideoWriter.close`: release the writer if it is live, then set
`_writer = None`; a later call finds `_writer is None` and does nothing. -/
def VideoWriter.close (s : VideoWriter) : VideoWriter :=
  if s.writerSome then
    { s with writerSome := false, releases := s.releases + 1 }
  else s

/-- Observable writer events during a pipeline run. -/
inductive PipeEvent where
  | wrote
  | closeCall
deriving DecidableEq, Repr

/-- The `for frame in reader` loop of `Pipeline.run`.  Each element of
`frames` is what the reader's iterator produces: a frame, or an exception
raised mid-iteration.  `filt`, `rend` and `writeF` are the per-frame filter,
canvas-render and sink-write steps, each of which may raise.  Returns the
first error (if any), the writer state at loop exit, and the writer events
in order. -/
def Pipeline.loop {α : Type} (filt : Img → Except String α)
    (rend : Img → α → Except String Img)
    (writeF : Img → VideoWriter → Except String VideoWriter) :
    List (Except String Img) → VideoWriter →
      Option String × VideoWriter × List PipeEvent
  | [], wst => (none, wst, [])
  | item :: rest, wst =>
    match item with
    | .error e => (some e, wst, [])
    | .ok frame =>
      match filt frame with
      | .error e => (some e, wst, [])
      | .ok out =>
        match rend frame out with
        | .error e => (some e, wst, [])
        | .ok rendered =>
          match writeF rendered wst with
          | .error e => (some e, wst, [])
          | .ok wst2 =>
            let r := Pipeline.loop filt rend writeF rest wst2
            (r.1, r.2.1, .wrote :: r.2.2)

/-- Method `Pipeline.run`: the frame loop wrapped in `try: ... finally: writer.close()`:
whatever the loop's outcome, `close` runs once, after which the error — if
there was one — propagates to the caller. -/
def Pipeline.run {α : Type} (filt : Img → Except String α)
    (rend : Img → α → Except String Img)
    (writeF : Img → VideoWriter → Except String VideoWriter)
    (frames : List (Except String Img)) (wst : VideoWriter) :
    Option String × VideoWriter × List PipeEvent :=
  let r := Pipeline.loop filt rend writeF frames wst
  (r.1, r.2.1.close, r.2.2 ++ [.closeCall])

/-- Field names of the `FilterOutput` dataclass in `filters/base.py`. -/
def FilterOutput.fields : List String := ["frame_idx", "metadata"]

/-- Field names the `FeatureOutput` dataclass constructor accepts: its class
body is `pass`, so it inherits `FilterOutput`'s fields and declares none of
its own. -/
def FeatureOutput.fields : List String := FilterOutput.fields ++ []

/-- A Python dataclass `__init__` call with keyword arguments: any keyword
that is not a declared field raises `TypeError`. -/
def dataclassInit (fields : List String) (kwargs : List String) : Except PyError Unit :=
  if kwargs.all fun k => fields.contains k then .ok () else .error .typeError

/-- The keyword arguments `DINOv2Filter.process_frame` passes to
`FeatureOutput` for every frame:
`FeatureOutput(frame_idx=idx, features=features_np)`. -/
def dinov2ReturnKwargs : List String := ["frame_idx", "features"]

/-- The attribute `FeatureLayer.render` reads off a feature-carrying output:
`filter_output.features`. -/
def featureLayerReadField : String := "features"

theorem toU8_natCast {n : ℕ} (h : n < 256) : toU8 (n : ℚ) = n := by
  have h0 : ¬ ((n : ℚ) < 0) := by
    simp [not_lt]
  simp only [toU8, truncQ, h0, if_false, Int.floor_natCast]
  omega

theorem getD_range_map {α : Type} (g : ℕ → α) (d : α) {n y : ℕ} (hy : y < n) :
    ((List.range n).map g).getD y d = g y := by
  simp [List.getD_eq_getElem?_getD, List.getElem?_map, List.getElem?_range hy]

theorem getD_zipWith {α β γ : Type} (f : α → β → γ) {a : List α} {b : List β}
    {i : ℕ} (ha : i < a.length) (hb : i < b.length) (d₁ : α) (d₂ : β) (d₃ : γ) :
    (List.zipWith f a b).getD i d₃ = f (a.getD i d₁) (b.getD i d₂) := by
  simp [List.getD_eq_getElem?_getD, List.getElem?_zipWith,
    List.getElem?_eq_getElem ha, List.getElem?_eq_getElem hb]

theorem zipWith_eq_left {α β : Type} {R : α → β → Prop} {g : α → β → α}
    (hg : ∀ a b, R a b → g a b = a) :
    ∀ {l₁ : List α} {l₂ : List β}, List.Forall₂ R l₁ l₂ → List.zipWith g l₁ l₂ = l₁ := by
  intro l₁ l₂ hl
  induction hl with
  | nil => rfl
  | cons hab _ ih => simp [List.zipWith, hg _ _ hab, ih]

theorem getD_mem {α : Type} {l : List α} {i : ℕ} (hi : i < l.length) (d : α) :
    l.getD i d ∈ l := by
  rw [List.getD_eq_getElem?_getD, List.getElem?_eq_getElem hi]
  exact List.getElem_mem hi

theorem blendPx_zero {t : ℕ} (f : ℕ) (ht : t < 256) : blendPx 0 t f = t := by
  have : (t : ℚ) * (1 - 0) + (f : ℚ) * 0 = (t : ℚ) := by ring
  rw [blendPx, this, toU8_natCast ht]

theorem blendData_zero {t f : Img} (hc : Compat t f) : blendData 0 t f = t := by
  refine zipWith_eq_left ?_ hc
  intro r s hrs
  refine zipWith_eq_left ?_ hrs
  intro p q hpq
  refine zipWith_eq_left ?_ hpq
  intro a b hab
  exact blendPx_zero b hab

theorem compat_of_wf {h w : ℕ} {t f : Img} (ht : wfImg h w t) (hf : wfImg h w f) :
    Compat t f := by
  obtain ⟨hlt, hrt⟩ := ht
  obtain ⟨hlf, hrf⟩ := hf
  rw [Compat, List.forall₂_iff_zip]
  refine ⟨by omega, ?_⟩
  intro r s hrs
  obtain ⟨hr, hs⟩ := List.of_mem_zip hrs
  obtain ⟨hrw, hrpx⟩ := hrt r hr
  obtain ⟨hsw, hspx⟩ := hrf s hs
  rw [List.forall₂_iff_zip]
  refine ⟨by omega, ?_⟩
  intro p q hpq
  obtain ⟨hp, hq⟩ := List.of_mem_zip hpq
  obtain ⟨hp3, hpv⟩ := hrpx p hp
  obtain ⟨hq3, _⟩ := hspx q hq
  rw [List.forall₂_iff_zip]
  refine ⟨by omega, ?_⟩
  intro a b hab
  exact hpv a (List.of_mem_zip hab).1

/-- C3 (amended): `ImageLayer.render` with opacity 1.0 returns an image
element-wise equal to `frame` carried by a freshly allocated array (distinct
identity); with opacity 0.0 it returns the target's data unchanged; with
opacity 0.5 each sample is `target*0.5 + frame*0.5` truncated (not rounded)
to an 8-bit sample. -/
theorem imageLayer_render_opacities (h w : ℕ) (target frame : NpImg) (fresh : ℕ)
    (ht : wfImg h w target.data) (hf : wfImg h w frame.data) (hfresh : fresh ≠ frame.id) :
    ((ImageLayer.init 1).render fresh target frame).data = frame.data ∧
    ((ImageLayer.init 1).render fresh target frame).id ≠ frame.id ∧
    ((ImageLayer.init 0).render fresh target frame).data = target.data ∧
    ∀ y x c, y < h → x < w → c < 3 →
      px3 ((ImageLayer.init (1/2)).render fresh target frame).data y x c
        = toU8 (((px3 target.data y x c : ℚ) + (px3 frame.data y x c : ℚ)) / 2) := by
  have hcl1 : clip01 1 = 1 := by norm_num [clip01]
  have hcl0 : clip01 0 = 0 := by norm_num [clip01]
  have hclh : clip01 (1/2) = 1/2 := by norm_num [clip01]
  have hno : ¬ (1 : ℚ) ≤ 0 := by norm_num
  have hnh : ¬ (1 : ℚ) ≤ 1/2 := by norm_num
  refine ⟨?_, ?_, ?_, ?_⟩
  · simp [ImageLayer.render, ImageLayer.init, hcl1]
  · simpa [ImageLayer.render, ImageLayer.init, hcl1] using hfresh
  · simp only [ImageLayer.render, ImageLayer.init, hcl0, hno, if_false]
    exact blendData_zero (compat_of_wf ht hf)
  · intro y x c hy hx hc
    simp only [ImageLayer.render, ImageLayer.init, hclh, hnh, if_false]
    obtain ⟨hlt, hrowt⟩ := ht
    obtain ⟨hlf, hrowf⟩ := hf
    have hyt : y < target.data.length := by omega
    have hyf : y < frame.data.length := by omega
    obtain ⟨hwt, hpxt⟩ := hrowt _ (getD_mem hyt [])
    obtain ⟨hwf, hpxf⟩ := hrowf _ (getD_mem hyf [])
    have hxt : x < (target.data.getD y []).length := by omega
    have hxf : x < (frame.data.getD y []).length := by omega
    obtain ⟨h3t, _⟩ := hpxt _ (getD_mem hxt [])
    obtain ⟨h3f, _⟩ := hpxf _ (getD_mem hxf [])
    have hct : c < ((target.data.getD y []).getD x []).length := by omega
    have hcf : c < ((frame.data.getD y []).getD x []).length := by omega
    rw [px3, blendData, getD_zipWith _ hyt hyf [] [] [],
      getD_zipWith _ hxt hxf [] [] [], getD_zipWith _ hct hcf 0 0 0]
    rw [blendPx, px3, px3]
    congr 1
    ring

/-- C3 counterexample: at `opacity = 0.5`, sample values target 1 / frame 2
blend to 1.5, which the code truncates to 1 while the claim's
`round(target*0.5 + frame*0.5)` is 2. -/
theorem imageLayer_half_opacity_truncates_not_rounds :
    ((ImageLayer.init (1/2)).render 7 ⟨0, [[[1, 1, 1]]]⟩ ⟨1, [[[2, 2, 2]]]⟩).data
        = [[[1, 1, 1]]] ∧
    specBlendHalfPx 1 2 = 2 ∧
    ([[[1, 1, 1]]] : Img) ≠ [[[2, 2, 2]]] := by
  have hclh : clip01 (1/2) = 1/2 := by norm_num [clip01]
  have hnh : ¬ (1 : ℚ) ≤ 1/2 := by norm_num
  have hb : blendPx (1/2) 1 2 = 1 := by
    have h1 : ((1:ℕ) : ℚ) * (1 - 1/2) + ((2:ℕ) : ℚ) * (1/2) = 3/2 := by norm_num
    have h2 : truncQ (3/2 : ℚ) = 1 := by
      rw [truncQ, if_neg (by norm_num)]
      norm_num
    rw [blendPx, h1, toU8, h2]
    decide
  have hr : specBlendHalfPx 1 2 = 2 := by
    have h1 : ((1:ℕ) : ℚ) * (1/2) + ((2:ℕ) : ℚ) * (1/2) = 3/2 := by norm_num
    have h2 : truncQ ((3:ℚ)/2 + 1/2) = 2 := by
      rw [truncQ, if_neg (by norm_num)]
      norm_num
    rw [specBlendHalfPx, h1, roundQ, h2]
    decide
  refine ⟨?_, hr, by decide⟩
  simp only [ImageLayer.render, ImageLayer.init, hclh, hnh, if_false]
  show blendData (1/2) [[[1, 1, 1]]] [[[2, 2, 2]]] = [[[1, 1, 1]]]
  have hb2 : blendPx 2⁻¹ 1 2 = 1 := by
    rw [← one_div]
    exact hb
  simp [blendData, hb2]

/-- Witness instantiating `imageLayer_render_opacities` at a concrete 1×1 image. -/
theorem imageLayer_render_opacities_witness :
    wfImg 1 1 ([[[1, 1, 1]]] : Img) ∧ wfImg 1 1 ([[[2, 2, 2]]] : Img) ∧ (7 : ℕ) ≠ 1 ∧
    ((ImageLayer.init 0).render 7 ⟨0, [[[1, 1, 1]]]⟩ ⟨1, [[[2, 2, 2]]]⟩).data
      = [[[1, 1, 1]]] :=
  ⟨by decide, by decide, by decide,
    (imageLayer_render_opacities 1 1 ⟨0, [[[1, 1, 1]]]⟩ ⟨1, [[[2, 2, 2]]]⟩ 7
      (by decide) (by decide) (by decide)).2.2.1⟩

theorem getD_map {α β : Type} (f : α → β) {l : List α} {i : ℕ}
    (hi : i < l.length) (d₁ : α) (d₂ : β) :
    (l.map f).getD i d₂ = f (l.getD i d₁) := by
  simp [List.getD_eq_getElem?_getD, List.getElem?_map, List.getElem?_eq_getElem hi]

theorem getD_take {α : Type} {l : List α} {n i : ℕ} (hi : i < n) (d : α) :
    (l.take n).getD i d = l.getD i d := by
  simp [List.getD_eq_getElem?_getD, List.getElem?_take, hi]

theorem toU8_zero : toU8 0 = 0 := by
  have h : ((0 : ℕ) : ℚ) = 0 := by norm_num
  rw [← h]
  exact toU8_natCast (by norm_num)

theorem toU8_255 : toU8 255 = 255 := by
  have h : ((255 : ℕ) : ℚ) = 255 := by norm_num
  rw [← h]
  exact toU8_natCast (by norm_num)

theorem foldl_min_le_init (xs : List ℚ) (a : ℚ) : xs.foldl min a ≤ a := by
  induction xs generalizing a with
  | nil => exact le_refl a
  | cons x xs ih => exact le_trans (ih (min a x)) (min_le_left a x)

theorem foldl_min_le_mem {v : ℚ} {xs : List ℚ} (a : ℚ) (hv : v ∈ xs) :
    xs.foldl min a ≤ v := by
  induction xs generalizing a with
  | nil => cases hv
  | cons x xs ih =>
    rcases List.mem_cons.mp hv with h | h
    · subst h
      exact le_trans (foldl_min_le_init xs (min a v)) (min_le_right a v)
    · exact ih (min a x) h

theorem init_le_foldl_max (xs : List ℚ) (a : ℚ) : a ≤ xs.foldl max a := by
  induction xs generalizing a with
  | nil => exact le_refl a
  | cons x xs ih => exact le_trans (le_max_left a x) (ih (max a x))

theorem mem_le_foldl_max {v : ℚ} {xs : List ℚ} (a : ℚ) (hv : v ∈ xs) :
    v ≤ xs.foldl max a := by
  induction xs generalizing a with
  | nil => cases hv
  | cons x xs ih =>
    rcases List.mem_cons.mp hv with h | h
    · subst h
      exact le_trans (le_max_right a v) (init_le_foldl_max xs (max a v))
    · exact ih (max a x) h

theorem qmin_le {v : ℚ} {l : List ℚ} (hv : v ∈ l) : qmin l ≤ v := by
  cases l with
  | nil => cases hv
  | cons x xs =>
    rcases List.mem_cons.mp hv with h | h
    · subst h
      exact foldl_min_le_init xs v
    · exact foldl_min_le_mem x h

theorem le_qmax {v : ℚ} {l : List ℚ} (hv : v ∈ l) : v ≤ qmax l := by
  cases l with
  | nil => cases hv
  | cons x xs =>
    rcases List.mem_cons.mp hv with h | h
    · subst h
      exact init_le_foldl_max xs v
    · exact mem_le_foldl_max x h

theorem chanMin_le_chanMax {h w : ℕ} {ch : List (List ℚ)}
    (hch : ch.length = h ∧ ∀ row ∈ ch, row.length = w) (hh : 0 < h) (hw : 0 < w) :
    chanMin ch ≤ chanMax ch := by
  have hrow : ch.getD 0 [] ∈ ch := getD_mem (by omega) []
  have hlen := (hch.2 _ hrow).symm
  have hv : (ch.getD 0 []).getD 0 0 ∈ ch.getD 0 [] := getD_mem (by omega) 0
  have hmem : (ch.getD 0 []).getD 0 0 ∈ ch.flatten :=
    List.mem_flatten.mpr ⟨_, hrow, hv⟩
  exact le_trans (qmin_le hmem) (le_qmax hmem)

theorem length_take_three {α : Type} {l : List α} (hd : 3 ≤ l.length) :
    (l.take 3).length = 3 := by
  rw [List.length_take]
  omega

theorem reduce_first3_px (d h w : ℕ) (features : Tensor)
    (hwf : wfTensor d h w features) (hd : 3 ≤ d) (hh : 0 < h) (hw : 0 < w)
    {y x c : ℕ} (hy : y < h) (hx : x < w) (hc : c < 3) :
    px3 (FeatureLayer.reduce_first3 features) y x c
      = ((normChannel (features.getD c [])).getD y []).getD x 0 := by
  obtain ⟨hlen, hmem⟩ := hwf
  have h0f : (0 : ℕ) < features.length := by omega
  have hch0 := hmem _ (getD_mem h0f [])
  have hrow0 : (features.getD 0 []).getD 0 [] ∈ features.getD 0 [] :=
    getD_mem (by omega) []
  have hw0 : ((features.getD 0 []).getD 0 []).length = w := hch0.2 _ hrow0
  have htake0 : (features.take 3).getD 0 [] = features.getD 0 [] :=
    getD_take (by norm_num) []
  have htl : (features.take 3).length = 3 := length_take_three (by omega)
  simp only [FeatureLayer.reduce_first3, htake0, hch0.1, hw0]
  rw [px3, getD_range_map _ _ hy, getD_range_map _ _ hx, getD_range_map _ _ hc,
    getD_map normChannel (by omega) [] [], getD_take hc []]

theorem normChannel_px_const {h w : ℕ} {ch : List (List ℚ)}
    (hlen : ch.length = h) (hrows : ∀ row ∈ ch, row.length = w)
    {y x : ℕ} (hy : y < h) (hx : x < w) (heq : chanMin ch = chanMax ch) :
    ((normChannel ch).getD y []).getD x 0 = 0 := by
  have hno : ¬ (0 : ℚ) < chanMax ch - chanMin ch := by
    rw [heq]
    simp
  have hyl : y < ch.length := by omega
  have hxl : x < (ch.getD y []).length := by
    have := hrows _ (getD_mem hyl [])
    omega
  simp only [normChannel, hno, if_false]
  rw [getD_map _ hyl [] [], getD_map _ hxl 0 0]

theorem normChannel_px_lin {h w : ℕ} {ch : List (List ℚ)}
    (hlen : ch.length = h) (hrows : ∀ row ∈ ch, row.length = w)
    {y x : ℕ} (hy : y < h) (hx : x < w) (hlt : chanMin ch < chanMax ch) :
    ((normChannel ch).getD y []).getD x 0
      = toU8 (((ch.getD y []).getD x 0 - chanMin ch)
          / (chanMax ch - chanMin ch) * 255) := by
  have hpos : (0 : ℚ) < chanMax ch - chanMin ch := by linarith
  have hyl : y < ch.length := by omega
  have hxl : x < (ch.getD y []).length := by
    have := hrows _ (getD_mem hyl [])
    omega
  simp only [normChannel, hpos, if_true]
  rw [getD_map _ hyl [] [], getD_map _ hxl 0 0]

/-- C6: `_reduce_first3` on a `(D, H, W)` tensor with `D ≥ 3` produces an
`(H, W, 3)` uint8 image where each of the first three channels is processed
independently: a channel whose minimum equals its maximum yields an all-zero
output channel, and a channel with distinct minimum and maximum is mapped
linearly (value `v` to `(v - min)/(max - min) * 255` truncated to integer),
so its minimum becomes 0 and its maximum becomes 255. -/
theorem reduce_first3_spec (d h w : ℕ) (features : Tensor)
    (hwf : wfTensor d h w features) (hd : 3 ≤ d) (hh : 0 < h) (hw : 0 < w) :
    ((FeatureLayer.reduce_first3 features).length = h ∧
      (∀ row ∈ FeatureLayer.reduce_first3 features, row.length = w ∧
        ∀ px ∈ row, px.length = 3)) ∧
    (∀ c, c < 3 → ∀ y, y < h → ∀ x, x < w →
      (chanMin (features.getD c []) = chanMax (features.getD c []) →
        px3 (FeatureLayer.reduce_first3 features) y x c = 0) ∧
      (chanMin (features.getD c []) ≠ chanMax (features.getD c []) →
        px3 (FeatureLayer.reduce_first3 features) y x c
          = toU8 ((((features.getD c []).getD y []).getD x 0
                - chanMin (features.getD c []))
              / (chanMax (features.getD c []) - chanMin (features.getD c [])) * 255) ∧
        (((features.getD c []).getD y []).getD x 0 = chanMin (features.getD c []) →
          px3 (FeatureLayer.reduce_first3 features) y x c = 0) ∧
        (((features.getD c []).getD y []).getD x 0 = chanMax (features.getD c []) →
          px3 (FeatureLayer.reduce_first3 features) y x c = 255))) := by
  obtain ⟨hlen, hmem⟩ := hwf
  have h0f : (0 : ℕ) < features.length := by omega
  have hch0 := hmem _ (getD_mem h0f [])
  have hrow0 : (features.getD 0 []).getD 0 [] ∈ features.getD 0 [] :=
    getD_mem (by omega) []
  have hw0 : ((features.getD 0 []).getD 0 []).length = w := hch0.2 _ hrow0
  have htake0 : (features.take 3).getD 0 [] = features.getD 0 [] :=
    getD_take (by norm_num) []
  constructor
  · constructor
    · simp only [FeatureLayer.reduce_first3, htake0, hch0.1]
      simp
    · intro row hrow
      simp only [FeatureLayer.reduce_first3, htake0, hch0.1, hw0,
        List.mem_map] at hrow
      obtain ⟨y, _, rfl⟩ := hrow
      constructor
      · simp
      · intro px hpx
        simp only [List.mem_map] at hpx
        obtain ⟨x, _, rfl⟩ := hpx
        simp
  · intro c hc y hy x hx
    have hchm : features.getD c [] ∈ features := getD_mem (by omega) []
    have hchc := hmem _ hchm
    have hpx := reduce_first3_px d h w features ⟨hlen, hmem⟩ hd hh hw hy hx hc
    constructor
    · intro heq
      rw [hpx]
      exact normChannel_px_const hchc.1 hchc.2 hy hx heq
    · intro hne
      have hle : chanMin (features.getD c []) ≤ chanMax (features.getD c []) :=
        chanMin_le_chanMax hchc hh hw
      have hlt : chanMin (features.getD c []) < chanMax (features.getD c []) :=
        lt_of_le_of_ne hle hne
      have hlin := normChannel_px_lin hchc.1 hchc.2 hy hx hlt
      rw [hpx, hlin]
      refine ⟨rfl, ?_, ?_⟩
      · intro hv
        rw [hv, sub_self, zero_div, zero_mul, toU8_zero]
      · intro hv
        rw [hv, div_self (by linarith : chanMax (features.getD c [])
            - chanMin (features.getD c []) ≠ 0), one_mul, toU8_255]

/-- Witness instantiating `reduce_first3_spec` on a concrete 3×1×2 tensor. -/
theorem reduce_first3_spec_witness :
    wfTensor 3 1 2 [[[0, 1]], [[5, 5]], [[2, 0]]] ∧ 3 ≤ 3 ∧ 0 < 1 ∧ 0 < 2 ∧
    (FeatureLayer.reduce_first3 [[[0, 1]], [[5, 5]], [[2, 0]]]).length = 1 :=
  ⟨by decide, by decide, by decide, by decide,
    (reduce_first3_spec 3 1 2 [[[0, 1]], [[5, 5]], [[2, 0]]]
      (by decide) (by decide) (by decide) (by decide)).1.1⟩

theorem mem_pcaVals {components : List (List ℚ)} {mean : List ℚ}
    {features : Tensor} {h w : ℕ}
    (hH : (features.getD 0 []).length = h)
    (hW : ((features.getD 0 []).getD 0 []).length = w)
    (hh : 0 < h) (hw : 0 < w) (hc : 0 < components.length) :
    (projPatch components mean features 0 0).getD 0 0
      ∈ pcaVals components mean features := by
  have hp : projPatch components mean features 0 0
      ∈ (projGrid components mean features h w).getD 0 [] := by
    rw [projGrid, getD_range_map _ _ hh]
    exact (getD_range_map (fun x => projPatch components mean features 0 x) [] hw) ▸
      getD_mem (by simpa using hw) []
  have hlenp : 0 < (projPatch components mean features 0 0).length := by
    simpa [projPatch] using hc
  have ha : (projPatch components mean features 0 0).getD 0 0
      ∈ projPatch components mean features 0 0 := getD_mem hlenp 0
  have hflat : (projPatch components mean features 0 0).getD 0 0
      ∈ ((projGrid components mean features h w).getD 0 []).flatten :=
    List.mem_flatten.mpr ⟨_, hp, ha⟩
  have hgl : (projGrid components mean features h w).getD 0 []
      ∈ projGrid components mean features h w := by
    refine getD_mem ?_ []
    simp [projGrid, hh]
  rw [pcaVals, hH, hW]
  exact List.mem_flatten.mpr
    ⟨_, List.mem_map.mpr ⟨_, hgl, rfl⟩, hflat⟩

theorem mapped_grid_shape (fn : ℚ → ℕ) (components : List (List ℚ)) (mean : List ℚ)
    (features : Tensor) (h w : ℕ) (hc3 : components.length = 3) :
    ((projGrid components mean features h w).map
        (List.map (List.map fn))).length = h ∧
    ∀ row ∈ (projGrid components mean features h w).map (List.map (List.map fn)),
      row.length = w ∧ ∀ px ∈ row, px.length = 3 := by
  constructor
  · simp [projGrid]
  · intro row hrow
    obtain ⟨r, hr, rfl⟩ := List.mem_map.mp hrow
    rw [projGrid] at hr
    obtain ⟨y, _, rfl⟩ := List.mem_map.mp hr
    constructor
    · simp
    · intro px hpx
      obtain ⟨t, ht, rfl⟩ := List.mem_map.mp hpx
      obtain ⟨x, _, rfl⟩ := List.mem_map.mp ht
      simp [projPatch, hc3]

theorem pca_px (components : List (List ℚ)) (mean : List ℚ) (features : Tensor)
    {h w : ℕ} (hH : (features.getD 0 []).length = h)
    (hW : ((features.getD 0 []).getD 0 []).length = w)
    (hc3 : components.length = 3)
    {y x c : ℕ} (hy : y < h) (hx : x < w) (hc : c < 3) :
    px3 (FeatureLayer.reduce_pca components mean features) y x c
      = (if 0 < qmax (pcaVals components mean features)
              - qmin (pcaVals components mean features) then
          toU8 (((projPatch components mean features y x).getD c 0
              - qmin (pcaVals components mean features))
            / (qmax (pcaVals components mean features)
              - qmin (pcaVals components mean features)) * 255)
        else 0) := by
  have hcl : c < (projPatch components mean features y x).length := by
    simp [projPatch, hc3, hc]
  by_cases hcond : 0 < qmax (pcaVals components mean features)
      - qmin (pcaVals components mean features)
  · simp only [FeatureLayer.reduce_pca, hH, hW, hcond, if_true]
    rw [px3, getD_map _ (by simp [projGrid, hy]) [] [], projGrid,
      getD_range_map _ _ hy, getD_map _ (by simp [hx]) [] [],
      getD_range_map _ _ hx, getD_map _ hcl 0 0]
  · simp only [FeatureLayer.reduce_pca, hH, hW, hcond, if_false]
    rw [px3, getD_map _ (by simp [projGrid, hy]) [] [], projGrid,
      getD_range_map _ _ hy, getD_map _ (by simp [hx]) [] [],
      getD_range_map _ _ hx, getD_map _ hcl 0 0]

/-- C7: `_reduce_pca` with a loaded `(3, D)`/`(D,)` basis reshapes the
`(D, H, W)` tensor to `(H*W, D)` patches, subtracts the mean, projects by
`components.T` to `(H*W, 3)`, normalizes by the single global min and max
over all `H*W*3` projected values, and reshapes to an `(H, W, 3)` uint8
image; when the global min equals the global max the output is all zero. -/
theorem reduce_pca_spec (d h w : ℕ) (components : List (List ℚ)) (mean : List ℚ)
    (features : Tensor) (hwf : wfTensor d h w features)
    (hc3 : components.length = 3) (hcd : ∀ comp ∈ components, comp.length = d)
    (hmd : mean.length = d) (hd : 0 < d) (hh : 0 < h) (hw : 0 < w) :
    ((FeatureLayer.reduce_pca components mean features).length = h ∧
      (∀ row ∈ FeatureLayer.reduce_pca components mean features, row.length = w ∧
        ∀ px ∈ row, px.length = 3)) ∧
    (∀ y, y < h → ∀ x, x < w → ∀ c, c < 3 →
      ((projPatch components mean features y x).getD c 0
          = (List.zipWith (fun a b => a * b)
              (List.zipWith (fun a b => a - b) (patchAt features y x) mean)
              (components.getD c [])).sum) ∧
      (qmin (pcaVals components mean features)
          = qmax (pcaVals components mean features) →
        px3 (FeatureLayer.reduce_pca components mean features) y x c = 0) ∧
      (qmin (pcaVals components mean features)
          ≠ qmax (pcaVals components mean features) →
        px3 (FeatureLayer.reduce_pca components mean features) y x c
          = toU8 (((projPatch components mean features y x).getD c 0
              - qmin (pcaVals components mean features))
            / (qmax (pcaVals components mean features)
              - qmin (pcaVals components mean features)) * 255))) := by
  obtain ⟨hlen, hmem⟩ := hwf
  have h0f : (0 : ℕ) < features.length := by omega
  have hch0 := hmem _ (getD_mem h0f [])
  have hH : (features.getD 0 []).length = h := hch0.1
  have hrow0 : (features.getD 0 []).getD 0 [] ∈ features.getD 0 [] :=
    getD_mem (by omega) []
  have hW : ((features.getD 0 []).getD 0 []).length = w := hch0.2 _ hrow0
  constructor
  · by_cases hcond : 0 < qmax (pcaVals components mean features)
        - qmin (pcaVals components mean features)
    · simp only [FeatureLayer.reduce_pca, hH, hW, hcond, if_true]
      exact mapped_grid_shape _ components mean features h w hc3
    · simp only [FeatureLayer.reduce_pca, hH, hW, hcond, if_false]
      exact mapped_grid_shape _ components mean features h w hc3
  · intro y hy x hx c hc
    refine ⟨?_, ?_, ?_⟩
    · rw [projPatch, getD_map _ (by omega : c < components.length) [] 0]
    · intro heq
      rw [pca_px components mean features hH hW hc3 hy hx hc,
        if_neg (by rw [heq]; simp)]
    · intro hne
      have hmemv : (projPatch components mean features 0 0).getD 0 0
          ∈ pcaVals components mean features :=
        mem_pcaVals hH hW hh hw (by omega : 0 < components.length)
      have hle : qmin (pcaVals components mean features)
          ≤ qmax (pcaVals components mean features) :=
        le_trans (qmin_le hmemv) (le_qmax hmemv)
      have hlt : qmin (pcaVals components mean features)
          < qmax (pcaVals components mean features) := lt_of_le_of_ne hle hne
      rw [pca_px components mean features hH hW hc3 hy hx hc,
        if_pos (by linarith)]

/-- Witness instantiating `reduce_pca_spec` on a concrete 1×1×1 tensor with
a matching basis. -/
theorem reduce_pca_spec_witness :
    wfTensor 1 1 1 [[[2]]] ∧ ([[1], [1], [1]] : List (List ℚ)).length = 3 ∧
    (∀ comp ∈ ([[1], [1], [1]] : List (List ℚ)), comp.length = 1) ∧
    ([0] : List ℚ).length = 1 ∧ 0 < 1 ∧ 0 < 1 ∧ 0 < 1 ∧
    (FeatureLayer.reduce_pca [[1], [1], [1]] [0] [[[2]]]).length = 1 :=
  ⟨by decide, by decide, by decide, by decide, by decide, by decide, by decide,
    (reduce_pca_spec 1 1 1 [[1], [1], [1]] [0] [[[2]]]
      (by decide) (by decide) (by decide) (by decide) (by decide) (by decide)
      (by decide)).1.1⟩

theorem getD_default {α : Type} {l : List α} {i : ℕ} (hi : l.length ≤ i) (d : α) :
    l.getD i d = d := by
  simp [List.getD_eq_getElem?_getD, List.getElem?_eq_none hi]

theorem zerosImg_shape (h w : ℕ) : wfShape h w (zerosImg h w) := by
  refine ⟨by simp [zerosImg], ?_⟩
  intro row hrow
  simp only [zerosImg, List.mem_map] at hrow
  obtain ⟨y, _, rfl⟩ := hrow
  refine ⟨by simp, ?_⟩
  intro px hpx
  simp only [List.mem_map] at hpx
  obtain ⟨x, _, rfl⟩ := hpx
  rfl

theorem zerosImg_px3 (h w y x c : ℕ) : px3 (zerosImg h w) y x c = 0 := by
  rw [px3]
  by_cases hy : y < h
  · rw [zerosImg, getD_range_map _ _ hy]
    by_cases hx : x < w
    · rw [getD_range_map _ _ hx]
      rcases c with _ | _ | _ | c <;> rfl
    · have hlen : ((List.range w).map fun _ => ([0, 0, 0] : List ℕ)).length ≤ x := by
        simp only [List.length_map, List.length_range]
        omega
      rw [getD_default hlen []]
      rfl
  · have hlen : (zerosImg h w).length ≤ y := by
      simp only [zerosImg, List.length_map, List.length_range]
      omega
    rw [zerosImg] at hlen ⊢
    rw [getD_default hlen []]
    rfl

theorem cvResize_shape {ph pw : ℕ} {img : Img} (hwf : wfShape ph pw img)
    (hph : 0 < ph) (hpw : 0 < pw) (w h : ℕ) :
    wfShape h w (cvResize img w h) := by
  obtain ⟨hlen, hrows⟩ := hwf
  refine ⟨by simp [cvResize], ?_⟩
  intro row hrow
  simp only [cvResize, List.mem_map] at hrow
  obtain ⟨y, hy, rfl⟩ := hrow
  rw [List.mem_range] at hy
  refine ⟨by simp, ?_⟩
  intro px hpx
  simp only [List.mem_map] at hpx
  obtain ⟨x, hx, rfl⟩ := hpx
  rw [List.mem_range] at hx
  have hh : 0 < h := by omega
  have hw : 0 < w := by omega
  have hyy : y * img.length / h < img.length := by
    rw [Nat.div_lt_iff_lt_mul hh, hlen]
    calc y * ph < h * ph := (Nat.mul_lt_mul_right hph).mpr hy
    _ = ph * h := Nat.mul_comm h ph
  have hrowmem := hrows _ (getD_mem hyy [])
  have hxx : x * (img.getD 0 []).length / w < (img.getD (y * img.length / h) []).length := by
    have h0 : (img.getD 0 []).length = pw := hrows _ (getD_mem (by omega) []) |>.1
    rw [h0, hrowmem.1, Nat.div_lt_iff_lt_mul hw]
    calc x * pw < w * pw := (Nat.mul_lt_mul_right hpw).mpr hx
    _ = pw * w := Nat.mul_comm w pw
  exact hrowmem.2 _ (getD_mem hxx _)

theorem overlay_shape {H W : ℕ} {out tile : Img} (hout : wfShape H W out)
    (htile : ∀ row ∈ tile, ∀ px ∈ row, px.length = 3)
    (y0 x0 ch cw : ℕ) : wfShape H W (overlay out tile y0 x0 ch cw) := by
  obtain ⟨hlen, hrows⟩ := hout
  refine ⟨by simp [overlay, hlen], ?_⟩
  intro row hrow
  simp only [overlay, List.mem_map] at hrow
  obtain ⟨y, hy, rfl⟩ := hrow
  rw [List.mem_range] at hy
  have hmemy := hrows _ (getD_mem hy [])
  by_cases hcy : y0 ≤ y ∧ y < y0 + ch
  · rw [if_pos hcy]
    refine ⟨?_, ?_⟩
    · simp only [List.length_map, List.length_range]
      exact hmemy.1
    intro px hpx
    simp only [List.mem_map] at hpx
    obtain ⟨x, hx, rfl⟩ := hpx
    rw [List.mem_range] at hx
    have hrowpx : (out.getD y []).getD x [] ∈ out.getD y [] := getD_mem hx []
    have hpx3 : ((out.getD y []).getD x []).length = 3 := hmemy.2 _ hrowpx
    by_cases hcx : x0 ≤ x ∧ x < x0 + cw
    · rw [if_pos hcx]
      by_cases hty : y - y0 < tile.length
      · have htrow := htile _ (getD_mem hty [])
        by_cases htx : x - x0 < (tile.getD (y - y0) []).length
        · exact htrow _ (getD_mem htx _)
        · rw [getD_default (by omega) _]
          exact hpx3
      · rw [getD_default (by omega) [], getD_default (by simp) _]
        exact hpx3
    · rw [if_neg hcx]
      exact hpx3
  · rw [if_neg hcy]
    exact ⟨hmemy.1, hmemy.2⟩

theorem arrange_foldl_shape {H W ch cw : ℕ} (cols : ℕ) :
    ∀ (pairs : List (ℕ × Img)) (out : Img), wfShape H W out →
      (∀ p ∈ pairs, paneOk p.2) →
      wfShape H W (pairs.foldl
        (fun output ip =>
          overlay output (cvResize ip.2 cw ch)
            (ip.1 / cols * ch) (ip.1 % cols * cw) ch cw) out)
  | [], out, hout, _ => hout
  | p :: ps, out, hout, hps => by
    rw [List.foldl_cons]
    refine arrange_foldl_shape cols ps _ ?_ (fun q hq => hps q (List.mem_cons_of_mem p hq))
    obtain ⟨ph, pw, hph, hpw, hwf⟩ := hps p (List.mem_cons_self p ps)
    refine overlay_shape hout ?_ _ _ _ _
    intro row hrow
    exact ((cvResize_shape hwf hph hpw cw ch).2 row hrow).2

/-- C5: for every pane list whose entries are nonempty rectangular 3-channel
images and every configured width, height and column count `c ≥ 1`,
`GridLayout.arrange` returns an image of shape `(height, width, 3)`; the
empty list yields an entirely zero frame; a single pane yields exactly that
image resized to `(width, height)`, independently of `c`. -/
theorem gridLayout_arrange_spec (width height n_cols : ℕ) (panes : List Img)
    (hc : 1 ≤ n_cols) (hpanes : ∀ img ∈ panes, paneOk img) :
    wfShape height width ((GridLayout.mk width height n_cols).arrange panes) ∧
    (panes = [] →
      ∀ y x c, px3 ((GridLayout.mk width height n_cols).arrange panes) y x c = 0) ∧
    (∀ img, panes = [img] →
      (GridLayout.mk width height n_cols).arrange panes = cvResize img width height ∧
      ∀ cols, 1 ≤ cols →
        (GridLayout.mk width height n_cols).arrange panes
          = (GridLayout.mk width height cols).arrange panes) := by
  refine ⟨?_, ?_, ?_⟩
  · match hp : panes with
    | [] => exact zerosImg_shape height width
    | [img] =>
      obtain ⟨ph, pw, hph, hpw, hwf⟩ := hpanes img (by simp)
      simpa [GridLayout.arrange] using cvResize_shape hwf hph hpw width height
    | a :: b :: rest =>
      have hlen2 : ¬ (a :: b :: rest).length = 0 := by simp
      have hlen1 : ¬ (a :: b :: rest).length = 1 := by simp
      simp only [GridLayout.arrange, hlen2, hlen1, if_false]
      refine arrange_foldl_shape n_cols _ _ (zerosImg_shape height width) ?_
      intro p hpmem
      exact hpanes _ (List.snd_mem_of_mem_enum hpmem)
  · intro hempty y x c
    subst hempty
    simp only [GridLayout.arrange, List.length_nil, if_pos rfl]
    exact zerosImg_px3 height width y x c
  · intro img hone
    subst hone
    constructor
    · simp [GridLayout.arrange]
    · intro cols _
      simp [GridLayout.arrange]

/-- Witness instantiating `gridLayout_arrange_spec` with an empty pane list
on a 2-wide, 1-high, 1-column layout. -/
theorem gridLayout_arrange_spec_witness :
    1 ≤ 1 ∧ (∀ img ∈ ([] : List Img), paneOk img) ∧
    wfShape 1 2 ((GridLayout.mk 2 1 1).arrange []) :=
  ⟨by decide, by simp, (gridLayout_arrange_spec 2 1 1 [] (by decide) (by simp)).1⟩

/-- C4 counterexample: with the default configuration (no output size and no
explicit column count) and two panes over a 64×64 frame, `_init_layout`
builds a 1-column 64×128 layout; the claim predicts a 2-column 128×64 one. -/
theorem canvas_init_layout_default_cols_is_one :
    Canvas.init_layout {} 2 64 64 = .ok (GridLayout.mk 64 128 1) ∧
    ¬ ∃ L, Canvas.init_layout {} 2 64 64 = .ok L ∧ L.n_cols = 2 := by
  constructor
  · rfl
  · rintro ⟨L, hL, hcols⟩
    have : L = GridLayout.mk 64 128 1 := by
      have h1 : Canvas.init_layout {} 2 64 64 = .ok (GridLayout.mk 64 128 1) := rfl
      rw [h1] at hL
      exact (Except.ok.injEq _ _).mp hL.symm
    rw [this] at hcols
    exact absurd hcols (by decide)

/-- C4 (amended): on the first render call, with no explicit output
width/height, the layout is built with `n_cols` equal to the configured
column count — whose default is 1 regardless of the pane count —
`n_rows = ceil(pane_count / n_cols)`, width `frame_width * n_cols` and
height `frame_height * n_rows`. -/
theorem canvas_init_layout_defaults (cfg : Config) (n_panes fw fh : ℕ)
    (htype : cfg.layout.type = "grid")
    (hwidth : cfg.output.width = none) (hheight : cfg.output.height = none) :
    Canvas.init_layout cfg n_panes fw fh
      = .ok (GridLayout.mk (fw * cfg.layout.cols)
          (fh * ((n_panes + cfg.layout.cols - 1) / cfg.layout.cols))
          cfg.layout.cols) ∧
    ((LayoutConfig.mk "grid" 1 1 : LayoutConfig).cols = 1 ∧
      ({} : LayoutConfig) = LayoutConfig.mk "grid" 1 1) ∧
    (n_panes + cfg.layout.cols - 1) / cfg.layout.cols
      = n_panes ⌈/⌉ cfg.layout.cols := by
  refine ⟨?_, ⟨rfl, rfl⟩, (Nat.ceilDiv_eq_add_pred_div n_panes cfg.layout.cols).symm⟩
  rw [Canvas.init_layout]
  rw [hwidth, hheight]
  rw [if_pos htype]
  rfl

/-- Witness instantiating `canvas_init_layout_defaults` with the default
configuration, two panes and a 64×64 frame. -/
theorem canvas_init_layout_defaults_witness :
    ({} : Config).layout.type = "grid" ∧ ({} : Config).output.width = none ∧
    ({} : Config).output.height = none ∧
    Canvas.init_layout {} 2 64 64
      = .ok (GridLayout.mk (64 * ({} : Config).layout.cols)
          (64 * ((2 + ({} : Config).layout.cols - 1) / ({} : Config).layout.cols))
          ({} : Config).layout.cols) :=
  ⟨rfl, rfl, rfl, (canvas_init_layout_defaults {} 2 64 64 rfl rfl rfl).1⟩

/-- C8: constructing a FeatureLayer with `method='pca'` and no basis path
raises at construction time, before any frame is rendered; construction with
`method='pca'` and a path, or with `method='first3'`, succeeds. -/
theorem featureLayer_init_validates (op : ℚ) (p : String) (pp : Option String) :
    (∃ msg, FeatureLayer.init "pca" op none = .error (.valueError msg)) ∧
    FeatureLayer.init "pca" op (some p) = .ok ⟨"pca", clip01 op, some p⟩ ∧
    FeatureLayer.init "first3" op pp = .ok ⟨"first3", clip01 op, pp⟩ := by
  refine ⟨?_, ?_, ?_⟩
  · refine ⟨"pca_path is required when method=\"pca\". "
      ++ "run `filterworld precompute` first to generate PCA weights.", ?_⟩
    rw [FeatureLayer.init, if_pos ⟨rfl, rfl⟩]
  · rw [FeatureLayer.init, if_neg (by simp)]
  · rw [FeatureLayer.init, if_neg (by simp)]

theorem mapExcept_error {α β ε : Type} (f : α → Except ε β) :
    ∀ {l : List α} {a : α}, a ∈ l → (∃ e, f a = .error e) →
      ∃ e, mapExcept f l = .error e := by
  intro l
  induction l with
  | nil => intro a ha _; cases ha
  | cons x xs ih =>
    intro a ha hfa
    rcases List.mem_cons.mp ha with rfl | hmem
    · obtain ⟨e, he⟩ := hfa
      exact ⟨e, by rw [mapExcept, he]; rfl⟩
    · cases hfx : f x with
      | error e => exact ⟨e, by rw [mapExcept, hfx]; rfl⟩
      | ok b =>
        obtain ⟨e, he⟩ := ih hmem hfa
        refine ⟨e, ?_⟩
        rw [mapExcept, hfx]
        show (mapExcept f xs).bind _ = _
        rw [he]
        rfl

/-- C9: a layer dict whose `type` value is not a registered kind makes Canvas
construction fail with a `ValueError` whose message contains the offending
value and the list of known types; it never produces a layer. -/
theorem build_layer_unknown_type (d : LayerDict) (t : String)
    (htype : d.type = some t) (himg : t ≠ "image") (hfeat : t ≠ "feature") :
    build_layer d = .error (.valueError ("unknown layer type: " ++ pyQuote t
      ++ ". available types: " ++ registryKeysRepr)) ∧
    (∃ pre post, "unknown layer type: " ++ pyQuote t
        ++ ". available types: " ++ registryKeysRepr = pre ++ t ++ post) ∧
    (∃ pre, "unknown layer type: " ++ pyQuote t
        ++ ". available types: " ++ registryKeysRepr = pre ++ registryKeysRepr) ∧
    (∀ l, build_layer d ≠ .ok l) ∧
    (∀ cfg : Config, ∀ pc ∈ cfg.panes, d ∈ pc.layers →
      ∃ e, Canvas.build_panes cfg = .error e) := by
  have hbuild : build_layer d = .error (.valueError ("unknown layer type: "
      ++ pyQuote t ++ ". available types: " ++ registryKeysRepr)) := by
    simp only [build_layer, htype, Option.getD_some]
    rw [if_neg himg, if_neg hfeat]
  refine ⟨hbuild, ?_, ?_, ?_, ?_⟩
  · refine ⟨"unknown layer type: " ++ "\x27",
      "\x27" ++ (". available types: " ++ registryKeysRepr), ?_⟩
    simp only [pyQuote, ← String.append_assoc]
  · refine ⟨"unknown layer type: " ++ pyQuote t ++ ". available types: ", rfl⟩
  · intro l hl
    rw [hbuild] at hl
    cases hl
  · intro cfg pc hpc hd
    have hne : ¬ cfg.panes.isEmpty := by
      cases hcp : cfg.panes with
      | nil => rw [hcp] at hpc; cases hpc
      | cons a b => simp
    rw [Canvas.build_panes, if_neg hne]
    refine mapExcept_error _ hpc ?_
    obtain ⟨e, he⟩ := mapExcept_error build_layer hd ⟨_, hbuild⟩
    exact ⟨e, by rw [he]; rfl⟩

/-- Witness instantiating `build_layer_unknown_type` at `type='nonexistent'`,
the value the repository's own test uses. -/
theorem build_layer_unknown_type_witness :
    (LayerDict.mk (some "nonexistent") none none none).type = some "nonexistent" ∧
    "nonexistent" ≠ "image" ∧ "nonexistent" ≠ "feature" ∧
    ∀ l, build_layer (LayerDict.mk (some "nonexistent") none none none) ≠ .ok l :=
  ⟨rfl, by decide, by decide,
    (build_layer_unknown_type (LayerDict.mk (some "nonexistent") none none none)
      "nonexistent" rfl (by decide) (by decide)).2.2.2.1⟩

/-- C10 counterexample: a layer dict with no `type` key but a `method` key is
routed to `ImageLayer(**kwargs)`, which rejects the unexpected keyword
argument, so Canvas construction fails instead of succeeding. -/
theorem build_layer_no_type_with_method_fails :
    build_layer (LayerDict.mk none none (some "pca") none) = .error .typeError ∧
    (∀ l, build_layer (LayerDict.mk none none (some "pca") none) ≠ .ok l) ∧
    Canvas.build_panes
        (Config.mk {} [⟨[LayerDict.mk none none (some "pca") none], none⟩] {})
      = .error .typeError := by
  refine ⟨rfl, ?_, rfl⟩
  intro l hl
  cases hl

/-- C10 (amended): a layer dict lacking `type` is treated as `type='image'`
rather than rejected — Canvas construction builds an ImageLayer from it —
provided its remaining keys are arguments ImageLayer accepts (at most
`opacity`). -/
theorem build_layer_no_type_defaults_image (op : Option ℚ) (lbl : Option String) :
    build_layer (LayerDict.mk none op none none)
      = .ok (.image (ImageLayer.init (op.getD 1))) ∧
    Canvas.build_panes (Config.mk {} [⟨[LayerDict.mk none op none none], lbl⟩] {})
      = .ok [⟨[.image (ImageLayer.init (op.getD 1))], lbl⟩] := by
  constructor
  · rfl
  · rfl

theorem loop_no_closeCall {α : Type} (filt : Img → Except String α)
    (rend : Img → α → Except String Img)
    (writeF : Img → VideoWriter → Except String VideoWriter) :
    ∀ (frames : List (Except String Img)) (wst : VideoWriter),
      PipeEvent.closeCall ∉ (Pipeline.loop filt rend writeF frames wst).2.2
  | [], wst => by simp [Pipeline.loop]
  | item :: rest, wst => by
    rw [Pipeline.loop.eq_def]
    cases item with
    | error e => simp
    | ok frame =>
      cases hf : filt frame with
      | error e => simp [hf]
      | ok out =>
        cases hr : rend frame out with
        | error e => simp [hf, hr]
        | ok rendered =>
          cases hwr : writeF rendered wst with
          | error e => simp [hf, hr, hwr]
          | ok wst2 =>
            simp only [hf, hr, hwr, List.mem_cons]
            rintro (h | h)
            · cases h
            · exact loop_no_closeCall filt rend writeF rest wst2 h

theorem close_writerSome_false (s : VideoWriter) : s.close.writerSome = false := by
  rw [VideoWriter.close]
  by_cases hs : s.writerSome
  · rw [if_pos hs]
  · rw [if_neg hs]
    simpa using hs

theorem close_idempotent (s : VideoWriter) : s.close.close = s.close := by
  have h := close_writerSome_false s
  rw [VideoWriter.close]
  rw [if_neg (by simp [h])]

/-- C2: the sink's `close()` runs exactly once per `Pipeline.run`, as the
final writer event, on normal completion and on any exception raised while
iterating frames (by the source, the filter, the canvas or the sink write);
after the run the writer is released, and `close()` is idempotent so calling
it again is safe. -/
theorem pipeline_run_closes_once {α : Type} (filt : Img → Except String α)
    (rend : Img → α → Except String Img)
    (writeF : Img → VideoWriter → Except String VideoWriter)
    (frames : List (Except String Img)) (wst : VideoWriter) :
    ((Pipeline.run filt rend writeF frames wst).2.2.count PipeEvent.closeCall = 1) ∧
    ((Pipeline.run filt rend writeF frames wst).2.2.getLast?
      = some PipeEvent.closeCall) ∧
    ((Pipeline.run filt rend writeF frames wst).2.1.writerSome = false) ∧
    ((Pipeline.run filt rend writeF frames wst).2.1.close
      = (Pipeline.run filt rend writeF frames wst).2.1) ∧
    (∀ s : VideoWriter, s.close.close = s.close) := by
  refine ⟨?_, ?_, ?_, ?_, close_idempotent⟩
  · rw [Pipeline.run]
    rw [List.count_append]
    rw [List.count_eq_zero.mpr (loop_no_closeCall filt rend writeF frames wst)]
    rfl
  · rw [Pipeline.run]
    exact List.getLast?_concat _
  · exact close_writerSome_false _
  · exact close_idempotent _

/-- C1: the `features` field is absent from the `FeatureOutput` dataclass —
its body adds nothing to `FilterOutput` — so the constructor call
`DINOv2Filter.process_frame` makes for every frame is a `TypeError`, and the
attribute `FeatureLayer.render` reads does not exist, contradicting the
repository's own tests, which construct `FeatureOutput(frame_idx=...,
features=...)` and read `.features`. -/
theorem featureOutput_missing_features_field :
    featureLayerReadField ∉ FeatureOutput.fields ∧
    dataclassInit FeatureOutput.fields dinov2ReturnKwargs = .error .typeError ∧
    dataclassInit FeatureOutput.fields ["frame_idx", "metadata"] = .ok () := by
  refine ⟨by decide, ?_, ?_⟩
  · rfl
  · rfl

end Filterworld
